import Mathlib

/-
Verification development for the ENTSO-E ingestion-and-consolidation pipeline:
a shallow embedding of `src/scripts/entsoe_retrieval.py` and
`src/scripts/entsoe_preprocessing.py` (as driven by `src/main.py`), together
with theorems about the embedded functions.

Modelling conventions:
* Timestamps are integer minutes since the Unix epoch.  The Python code
  carries timezone-aware UTC datetimes and their ISO-8601 renderings; both
  order exactly as the underlying instants do (all rendered timestamps share
  the `+00:00` offset and a uniform format), so the integer model preserves
  ordering, extrema and equality.
* Floating-point observation values are abstracted to integers: no property
  below depends on value arithmetic, only on equality of whole rows.
* `pandas.DataFrame` tables are lists of typed rows in frame order.
  `sort_values(by='timestamp')` with the default `kind='quicksort'` is
  documented to order rows ascending by the key but NOT to be stable: the
  relative order of rows with equal timestamps is unspecified.  The
  embedding therefore carries both a deterministic representative
  (`sort_values`, a stable sort — one admissible output, sufficient for
  every property that does not depend on the tie order) and the documented
  contract itself (`sortsByTimestamp`: the output is some sorted permutation
  of the input) for the properties whose truth turns on the tie order.
* I/O effects (HTTP, file writes, logging) are made explicit: the HTTP
  response is an input, file writes and fetch attempts are an event trace,
  log calls are a list of levels.  A Python exception that the code does not
  catch is an `Except.error` / an `Option Exn` that aborts the enclosing
  iteration, exactly as an exception propagates out of the loops.
-/

/-- One row of a monthly or yearly artifact table: the record dict built at
entsoe_retrieval.py lines 168-175 with columns
`timestamp, area_code, dataset, production_type, value, unit`. -/
structure Row where
  timestamp : Int
  area_code : String
  dataset : String
  production_type : String
  value : Int
  unit : String
  deriving DecidableEq, Repr

/-- The deduplication key `subset=['timestamp', 'production_type']` used by
both `drop_duplicates` call sites. -/
def rowKey (r : Row) : Int × String := (r.timestamp, r.production_type)

/-- The comparison used by `sort_values(by='timestamp')`. -/
def rowLE (a b : Row) : Prop := a.timestamp ≤ b.timestamp

instance : DecidableRel rowLE := fun a b => Int.decLe a.timestamp b.timestamp

instance : IsTotal Row rowLE := ⟨fun a b => Int.le_total a.timestamp b.timestamp⟩

instance : IsTrans Row rowLE := ⟨fun _ _ _ h1 h2 => Int.le_trans h1 h2⟩

/-- A deterministic representative of `df.sort_values(by='timestamp')`
(entsoe_retrieval.py line 179, entsoe_preprocessing.py line 38): a stable
sort on the timestamp column.  This is one admissible output of the pandas
call; pandas only guarantees the contract `sortsByTimestamp` below, which
leaves the order of equal-timestamp rows unspecified. -/
def sort_values (l : List Row) : List Row := List.insertionSort rowLE l

/-- Worker for `drop_duplicates`: keep a row when its key has not been seen
yet, scanning in frame order. -/
def dedupSeen : List Row → List (Int × String) → List Row
  | [], _ => []
  | r :: rest, seen =>
    if rowKey r ∈ seen then dedupSeen rest seen
    else r :: dedupSeen rest (rowKey r :: seen)

/-- Embedding of
`drop_duplicates(subset=['timestamp', 'production_type'], keep='first')`
(entsoe_retrieval.py line 183, entsoe_preprocessing.py line 41). -/
def drop_duplicates (l : List Row) : List Row := dedupSeen l []

/-- The sort-then-dedup pass applied to every persisted table
(entsoe_retrieval.py lines 178-183 and entsoe_preprocessing.py lines 37-41
perform the same two pandas operations with the same keys). -/
def canonicalize (l : List Row) : List Row := drop_duplicates (sort_values l)

/-- The table is in ascending timestamp order. -/
def sortedByTimestamp (l : List Row) : Prop := List.Sorted rowLE l

instance (l : List Row) : Decidable (sortedByTimestamp l) := List.decidableSorted l

/-- The `(timestamp, production_type)` pairs of the table are pairwise
distinct. -/
def uniqueKeys (l : List Row) : Prop := (l.map rowKey).Nodup

instance (l : List Row) : Decidable (uniqueKeys l) := by
  unfold uniqueKeys; infer_instance

/-- Everything pandas documents about
`sort_values(by='timestamp', kind='quicksort')` (the call as written in the
code): the output is a permutation of the input that is ascending in
timestamp.  Because quicksort is not stable, the relative order of rows with
equal timestamps is unspecified, so any `output` satisfying this contract is
an admissible result of running the program. -/
def sortsByTimestamp (input output : List Row) : Prop :=
  List.Perm output input ∧ sortedByTimestamp output

instance (input output : List Row) : Decidable (sortsByTimestamp input output) := by
  unfold sortsByTimestamp; infer_instance

/-- PSR production-type code table (entsoe_retrieval.py lines 26-47). -/
def PSR_TYPE_MAP : List (String × String) :=
  [("B01", "Biomass"), ("B02", "Fossil Brown coal/Lignite"),
   ("B03", "Fossil Coal-derived gas"), ("B04", "Fossil Gas"),
   ("B05", "Fossil Hard coal"), ("B06", "Fossil Oil"),
   ("B07", "Fossil Oil shale"), ("B08", "Fossil Peat"), ("B09", "Geothermal"),
   ("B10", "Hydro Pumped Storage"), ("B11", "Hydro Run-of-river"),
   ("B12", "Hydro Reservoir"), ("B13", "Marine"), ("B14", "Nuclear"),
   ("B15", "Other renewable"), ("B16", "Solar"), ("B17", "Waste"),
   ("B18", "Wind Offshore"), ("B19", "Wind Onshore"), ("B20", "Other")]

/-- Per-dataset configuration (entsoe_retrieval.py lines 50-76).  The domain
field names are abstracted to the flag that matters downstream: whether both
`in_Domain` and `out_Domain` are set to the same code. -/
structure DatasetConfig where
  documentType : String
  processType : String
  symmetricDomain : Bool
  unit : String
  deriving DecidableEq, Repr

def DATASETS : String → Option DatasetConfig
  | "actual_load" => some ⟨"A65", "A16", false, "MW"⟩
  | "actual_generation" => some ⟨"A75", "A16", false, "MW"⟩
  | "day_ahead_prices" => some ⟨"A44", "A01", true, "EUR/MWh"⟩
  | "installed_capacity" => some ⟨"A68", "A33", false, "MW"⟩
  | _ => none

/-- Country name to bidding-zone (code, label) list (entsoe_retrieval.py
lines 15-23). -/
def BIDDING_ZONES : String → Option (List (String × String))
  | "Germany" => some [("10Y1001A1001A82H", "DE-LU")]
  | "Denmark" => some [("10YDK-1--------W", "DK1"), ("10YDK-2--------M", "DK2")]
  | "Sweden" => some [("10Y1001A1001A44P", "SE1"), ("10Y1001A1001A45N", "SE2"),
                      ("10Y1001A1001A46L", "SE3"), ("10Y1001A1001A47J", "SE4")]
  | "Italy" => some [("10Y1001A1001A73I", "NORD"), ("10Y1001A1001A70O", "CNOR"),
                     ("10Y1001A1001A71M", "CSUD"), ("10Y1001A1001A788", "SUD"),
                     ("10Y1001A1001A74G", "SARD"), ("10Y1001A1001A75E", "SICI")]
  | _ => none

/-- Character-level worker for `pyTitle`, tracking whether the previous
character was alphabetic. -/
def titleChars : List Char → Bool → List Char
  | [], _ => []
  | c :: cs, prevAlpha =>
    (if c.isAlpha then (if prevAlpha then c.toLower else c.toUpper) else c)
      :: titleChars cs c.isAlpha

/-- Python `str.title()` restricted to ASCII input (used at
entsoe_retrieval.py line 131 as the final category fallback). -/
def pyTitle (s : String) : String := String.mk (titleChars s.toList false)

/-- A field that `xmltodict` renders either as a single element or as a list
of elements; the code normalizes both shapes to a list before iterating
(entsoe_retrieval.py lines 119-120, 140, 153). -/
inductive OneOrMany (α : Type) where
  | one : α → OneOrMany α
  | many : List α → OneOrMany α
  deriving DecidableEq, Repr

def OneOrMany.toList {α : Type} : OneOrMany α → List α
  | .one a => [a]
  | .many l => l

/-- One `Point` element: `position` as parsed by `int(...)`, and the two
possible value fields. -/
structure Point where
  position : Int
  quantity : Option Int
  priceAmount : Option Int
  deriving DecidableEq, Repr

/-- One `Period` element: the parsed `timeInterval` bounds, the optional
`resolution` code, and the point collection.  `endTime` is parsed by the code
(line 143) but never used afterwards. -/
structure Period where
  startTime : Int
  endTime : Int
  resolution : Option String
  point : OneOrMany Point
  deriving DecidableEq, Repr

/-- One `TimeSeries` element: the optional `MktPSRType/psrType` code and the
period collection. -/
structure TimeSeries where
  psrType : Option String
  period : OneOrMany Period
  deriving DecidableEq, Repr

/-- A document root: the `TimeSeries` key may be absent. -/
structure MarketDoc where
  timeSeries : Option (OneOrMany TimeSeries)
  deriving DecidableEq, Repr

/-- The dict produced by `xmltodict.parse`, restricted to the two root keys
the code looks up (entsoe_retrieval.py line 112). -/
structure ParsedDoc where
  glMarketDocument : Option MarketDoc
  publicationMarketDocument : Option MarketDoc
  deriving DecidableEq, Repr

/-- A response body: either unparseable markup (on which `xmltodict.parse`
raises) or a parsed document. -/
inductive Body where
  | malformed : Body
  | parsed : ParsedDoc → Body
  deriving DecidableEq, Repr

/-- An HTTP response as observed by the code: status code plus body. -/
structure Response where
  status : Nat
  body : Body
  deriving DecidableEq, Repr

/-- `data_dict.get('GL_MarketDocument') or data_dict.get('Publication_MarketDocument')`
(entsoe_retrieval.py line 112). -/
def marketDocOf (d : ParsedDoc) : Option MarketDoc :=
  d.glMarketDocument.orElse (fun _ => d.publicationMarketDocument)

/-- Resolution code to step minutes (entsoe_retrieval.py lines 144-151):
`period.get('resolution', 'PT60M')`, then 15 for PT15M, 30 for PT30M, and 60
for everything else. -/
def stepMinutes (resolution : Option String) : Int :=
  let r := resolution.getD "PT60M"
  if r = "PT15M" then 15 else if r = "PT30M" then 30 else 60

/-- Value extraction (entsoe_retrieval.py lines 159-166): `quantity` if
present, else `price.amount`, else the point is skipped. -/
def pointValueOf (p : Point) : Option Int :=
  match p.quantity with
  | some q => some q
  | none => p.priceAmount

/-- Category label (entsoe_retrieval.py lines 124-131): a fixed literal for
prices; otherwise the PSR lookup falling back to the raw code, or to
`dataset_key.title()` when no code is present. -/
def prodTypeOf (dk : String) (s : TimeSeries) : String :=
  if dk = "day_ahead_prices" then "Day-ahead Price"
  else
    match s.psrType with
    | some code => (PSR_TYPE_MAP.lookup code).getD code
    | none => pyTitle dk

/-- Unit label (entsoe_retrieval.py lines 133-137). -/
def unitOf (dk : String) : String :=
  if dk = "day_ahead_prices" then "EUR/MWh" else "MW"

/-- Rows contributed by one period (entsoe_retrieval.py lines 141-175):
each point with a value yields one row whose timestamp is
`interval_start + step_minutes * (position - 1)`. -/
def periodRecords (dk area pt u : String) (p : Period) : List Row :=
  p.point.toList.filterMap (fun point =>
    (pointValueOf point).map (fun v =>
      { timestamp := p.startTime + stepMinutes p.resolution * (point.position - 1),
        area_code := area, dataset := dk, production_type := pt,
        value := v, unit := u }))

/-- Rows contributed by one time series (entsoe_retrieval.py lines 123-175). -/
def seriesRecords (dk area : String) (s : TimeSeries) : List Row :=
  s.period.toList.flatMap (periodRecords dk area (prodTypeOf dk s) (unitOf dk))

inductive LogLevel where
  | info : LogLevel
  | warning : LogLevel
  | error : LogLevel
  deriving DecidableEq, Repr

/-- The Python exceptions that can escape `retrieve_entsoe_data` (none of
them is caught inside the function or its caller). -/
inductive Exn where
  /-- `DATASETS[dataset_key]` on an unknown key (line 85). -/
  | keyError : Exn
  /-- `xmltodict.parse` on an unparseable body (line 110). -/
  | expatError : Exn
  /-- `sort_values(by='timestamp')` on the column-less frame built from zero
  records (line 179). -/
  | emptyFrameError : Exn
  deriving DecidableEq, Repr

/-- Result of one call to `retrieve_entsoe_data`: either an escaping
exception or the Python return value (`None` or a dataframe), plus the log
levels emitted. -/
structure FetchResult where
  table : Except Exn (Option (List Row))
  logs : List LogLevel
  deriving Repr

/-- Embedding of `retrieve_entsoe_data` (entsoe_retrieval.py lines 83-185).
The HTTP response is an input; the parameter-building part (lines 86-102)
only shapes the request and is not needed by any property below. -/
def retrieve_entsoe_data (dk area : String) (resp : Response) : FetchResult :=
  match DATASETS dk with
  | none => { table := .error .keyError, logs := [] }
  | some _ =>
    if resp.status ≠ 200 then { table := .ok none, logs := [.info, .error] }
    else
      match resp.body with
      | .malformed => { table := .error .expatError, logs := [.info] }
      | .parsed d =>
        match marketDocOf d with
        | none => { table := .ok none, logs := [.info, .warning] }
        | some doc =>
          match doc.timeSeries with
          | none => { table := .ok none, logs := [.info, .warning] }
          | some tsl =>
            if (tsl.toList.flatMap (seriesRecords dk area)).isEmpty then
              { table := .error .emptyFrameError, logs := [.info] }
            else
              { table := .ok (some (canonicalize (tsl.toList.flatMap (seriesRecords dk area)))),
                logs := [.info, .info] }

/-- A calendar date as manipulated by the driver (`datetime(year, month, 1)`
instances; only the date part is ever rendered). -/
structure PyDate where
  year : Nat
  month : Nat
  day : Nat
  deriving DecidableEq, Repr

def pad2 (n : Nat) : String := if n < 10 then "0" ++ toString n else toString n

def pad4 (n : Nat) : String :=
  if n < 10 then "000" ++ toString n
  else if n < 100 then "00" ++ toString n
  else if n < 1000 then "0" ++ toString n
  else toString n

/-- `strftime('%Y%m%d')`. -/
def fmtYMD (d : PyDate) : String := pad4 d.year ++ pad2 d.month ++ pad2 d.day

/-- `datetime(...).isoformat()` for a UTC midnight instant. -/
def fmtIso (d : PyDate) : String :=
  pad4 d.year ++ "-" ++ pad2 d.month ++ "-" ++ pad2 d.day ++ "T00:00:00+00:00"

/-- Contents written to disk by the driver: a CSV table or a metadata JSON
object (an ordered field list, as Python dicts preserve insertion order). -/
inductive FileContent where
  | csv : List Row → FileContent
  | metaJson : List (String × String) → FileContent
  deriving DecidableEq, Repr

/-- Externally visible steps of the driver: an HTTP fetch for one unit of
work (dataset key, area code), or a file write. -/
inductive Event where
  | fetchAttempt : String → String → Event
  | fileWrite : String → FileContent → Event
  deriving DecidableEq, Repr

/-- Metadata dict written beside a price-zone monthly CSV
(entsoe_retrieval.py lines 207-216), in field order. -/
def priceMonthlyMetadata (country zoneLabel zoneCode dk : String)
    (sd ed : PyDate) (now : String) : List (String × String) :=
  [("country", country), ("bidding_zone", zoneLabel), ("area_code", zoneCode),
   ("dataset", dk), ("unit", ((DATASETS dk).map DatasetConfig.unit).getD ""),
   ("period_start", fmtIso sd), ("period_end", fmtIso ed),
   ("retrieval_timestamp", now)]

/-- Metadata dict written beside a non-price monthly CSV
(entsoe_retrieval.py lines 231-239), in field order. -/
def plainMonthlyMetadata (country areaCode dk : String)
    (sd ed : PyDate) (now : String) : List (String × String) :=
  [("country", country), ("area_code", areaCode), ("dataset", dk),
   ("unit", ((DATASETS dk).map DatasetConfig.unit).getD ""),
   ("period_start", fmtIso sd), ("period_end", fmtIso ed),
   ("retrieval_timestamp", now)]

/-- Monthly CSV filename (entsoe_retrieval.py lines 203 and 228):
`{country}[_{zone}]_{dataset}_{YYYYMMDD}_{YYYYMMDD}.csv`. -/
def monthlyCsvName (country : String) (zoneLabel : Option String) (dk : String)
    (sd ed : PyDate) : String :=
  match zoneLabel with
  | some zl => country ++ "_" ++ zl ++ "_" ++ dk ++ "_" ++ fmtYMD sd ++ "_" ++ fmtYMD ed ++ ".csv"
  | none => country ++ "_" ++ dk ++ "_" ++ fmtYMD sd ++ "_" ++ fmtYMD ed ++ ".csv"

/-- Replace every occurrence of `.csv` by `_metadata.json`, scanning left to
right (the semantics of Python's `str.replace` for this fixed pattern). -/
def replaceCsvChars : List Char → List Char
  | '.' :: 'c' :: 's' :: 'v' :: rest =>
    '_' :: 'm' :: 'e' :: 't' :: 'a' :: 'd' :: 'a' :: 't' :: 'a' :: '.' :: 'j' :: 's' :: 'o' :: 'n'
      :: replaceCsvChars rest
  | c :: rest => c :: replaceCsvChars rest
  | [] => []

/-- `csv_name.replace('.csv', '_metadata.json')`. -/
def metaNameOf (csvName : String) : String := String.mk (replaceCsvChars csvName.toList)

/-- One unit of work inside `retrieve_entsoe_datasets` (the body of the
inner loops, lines 198-222 for price zones and 223-245 otherwise): call
`retrieve_entsoe_data`, and when it returns a non-empty frame write the CSV
and its metadata sibling.  The fetch attempt is recorded whenever the HTTP
request is issued, which happens unless the `DATASETS` lookup raises first. -/
def processUnit (country areaCode : String) (zoneLabel : Option String) (dk : String)
    (sd ed : PyDate) (now : String) (resp : Response) : List Event × Option Exn :=
  let attempt := if (DATASETS dk).isSome then [Event.fetchAttempt dk areaCode] else []
  match (retrieve_entsoe_data dk areaCode resp).table with
  | .error e => (attempt, some e)
  | .ok none => (attempt, none)
  | .ok (some df) =>
    if df.isEmpty then (attempt, none)
    else
      let csvName := monthlyCsvName country zoneLabel dk sd ed
      let md := match zoneLabel with
        | some zl => priceMonthlyMetadata country zl areaCode dk sd ed now
        | none => plainMonthlyMetadata country areaCode dk sd ed now
      (attempt ++ [Event.fileWrite csvName (.csv df),
                   Event.fileWrite (metaNameOf csvName) (.metaJson md)], none)

/-- Sequential iteration with exception propagation: the loops of the driver
contain no `try`, so the first escaping exception truncates the run and the
remaining items are never visited. -/
def seqRun {α : Type} (f : α → List Event × Option Exn) : List α → List Event × Option Exn
  | [] => ([], none)
  | a :: rest =>
    let r := f a
    match r.2 with
    | some e => (r.1, some e)
    | none =>
      let r2 := seqRun f rest
      (r.1 ++ r2.1, r2.2)

/-- Zones used for a price dataset (entsoe_retrieval.py lines 191-197): the
`BIDDING_ZONES` entry when the country has one, else the country itself. -/
def zonesFor (countryName countryCode : String) : List (String × String) :=
  (BIDDING_ZONES countryName).getD [(countryCode, countryName)]

/-- The work done for one (country, dataset key) pair (entsoe_retrieval.py
lines 190-245): price datasets expand over bidding zones, other datasets use
the country code directly. -/
def datasetStep (country : String × String) (dk : String) (sd ed : PyDate)
    (now : String) (fetch : String → String → Response) : List Event × Option Exn :=
  if dk = "day_ahead_prices" then
    seqRun (fun zone => processUnit country.1 zone.1 (some zone.2) dk sd ed now (fetch dk zone.1))
      (zonesFor country.1 country.2)
  else processUnit country.1 country.2 none dk sd ed now (fetch dk country.2)

/-- The work done for one country: the inner dataset loop. -/
def countryStep (country : String × String) (datasets : List String) (sd ed : PyDate)
    (now : String) (fetch : String → String → Response) : List Event × Option Exn :=
  seqRun (fun dk => datasetStep country dk sd ed now fetch) datasets

/-- Embedding of `retrieve_entsoe_datasets` (entsoe_retrieval.py lines
187-245): iterate countries, then dataset keys, expanding price datasets
over bidding zones.  `fetch dk area` is the HTTP response the API returns
for that unit of work. -/
def retrieve_entsoe_datasets (countries : List (String × String)) (datasets : List String)
    (sd ed : PyDate) (now : String) (fetch : String → String → Response) :
    List Event × Option Exn :=
  seqRun (fun country => countryStep country datasets sd ed now fetch) countries

def monthStartDate (year month : Nat) : PyDate := ⟨year, month, 1⟩

def monthEndDate (year month : Nat) : PyDate :=
  if month = 12 then ⟨year + 1, 1, 1⟩ else ⟨year, month + 1, 1⟩

/-- Embedding of `retrieve_monthly_entsoe_datasets` (entsoe_retrieval.py
lines 248-257): the twelve calendar months of one year. -/
def retrieve_monthly_entsoe_datasets (countries : List (String × String))
    (datasets : List String) (year : Nat) (now : String)
    (fetch : Nat → String → String → Response) : List Event × Option Exn :=
  seqRun (fun m =>
      retrieve_entsoe_datasets countries datasets (monthStartDate year m)
        (monthEndDate year m) now (fetch m))
    (List.range' 1 12)

/-- The area codes actually fetched for one (country, dataset key) pair. -/
def unitAreas (country : String × String) (dk : String) : List String :=
  if dk = "day_ahead_prices" then (zonesFor country.1 country.2).map Prod.fst
  else [country.2]

/-- The (dataset key, area code) units of work of one `retrieve_entsoe_datasets`
sweep, in iteration order. -/
def unitsOf (countries : List (String × String)) (datasets : List String) :
    List (String × String) :=
  countries.flatMap (fun country => datasets.flatMap (fun dk =>
    (unitAreas country dk).map (fun a => (dk, a))))

/-- Whether `retrieve_entsoe_data` raises (rather than returning) on this
unit of work. -/
def fetchRaises (dk area : String) (resp : Response) : Bool :=
  match (retrieve_entsoe_data dk area resp).table with
  | .error _ => true
  | .ok _ => false

/-- One CSV file of the monthly artifact store, as seen by the merge engine:
its basename and the table read back from it. -/
structure MonthlyFile where
  name : String
  table : List Row
  deriving DecidableEq, Repr

/-- A merge-group key `(country, bidding_zone, dataset, year)` as the merge
engine builds it. -/
abbrev GroupKey := String × String × String × String

/-- Worker for `splitUnderscore`: accumulate the current segment in reverse. -/
def splitUnderscoreAux : List Char → List Char → List String
  | [], acc => [String.mk acc.reverse]
  | c :: cs, acc =>
    if c = '_' then String.mk acc.reverse :: splitUnderscoreAux cs []
    else splitUnderscoreAux cs (c :: acc)

/-- Python's `filename.split('_')`: underscore-separated segments, keeping
empty segments. -/
def splitUnderscore (s : String) : List String := splitUnderscoreAux s.toList []

/-- Python's `'_'.join(parts)`. -/
def joinUnderscore : List String → String
  | [] => ""
  | [s] => s
  | s :: rest => s ++ "_" ++ joinUnderscore rest

/-- Python's `s[:n]` slicing on strings. -/
def strTake (s : String) (n : Nat) : String := String.mk (s.toList.take n)

/-- Grouping key derived from the filename (entsoe_preprocessing.py lines
17-27): split on underscores; with at least five parts, take
`parts[0]`, `parts[1]`, `'_'.join(parts[2:-2])`, and `parts[-2][:4]`. -/
def groupKeyOf (filename : String) : Option GroupKey :=
  let parts := splitUnderscore filename
  if parts.length ≥ 5 then
    some (parts.getD 0 "", parts.getD 1 "",
          joinUnderscore ((parts.drop 2).dropLast.dropLast),
          strTake (parts.getD (parts.length - 2) "") 4)
  else none

/-- `file_groups.setdefault(key, []).append(filepath)` on an insertion-ordered
dict. -/
def addToGroup (k : GroupKey) (f : MonthlyFile) :
    List (GroupKey × List MonthlyFile) → List (GroupKey × List MonthlyFile)
  | [] => [(k, [f])]
  | g :: rest => if g.1 = k then (g.1, g.2 ++ [f]) :: rest else g :: addToGroup k f rest

/-- The `file_groups` dict (entsoe_preprocessing.py lines 14-28), built in
file order; files with fewer than five underscore-separated parts are
silently ignored. -/
def file_groups (files : List MonthlyFile) : List (GroupKey × List MonthlyFile) :=
  files.foldl (fun acc f =>
    match groupKeyOf f.name with
    | some k => addToGroup k f acc
    | none => acc) []

/-- `Series.min()` over an integer column. -/
def colMin : List Int → Option Int
  | [] => none
  | t :: rest => some (rest.foldl min t)

/-- `Series.max()` over an integer column. -/
def colMax : List Int → Option Int
  | [] => none
  | t :: rest => some (rest.foldl max t)

/-- The yearly metadata object (entsoe_preprocessing.py lines 49-58), with
the two period bounds kept as the underlying instants. -/
structure YearlyMeta where
  country : String
  bidding_zone : String
  dataset : String
  unit : String
  period_start : Int
  period_end : Int
  retrieval_timestamp : String
  source_files : List String
  deriving DecidableEq, Repr

/-- One yearly artifact: the CSV and its metadata sibling. -/
structure YearlyArtifact where
  csvName : String
  table : List Row
  metaName : String
  meta : YearlyMeta
  deriving DecidableEq, Repr

/-- Embedding of one iteration of the merge loop (entsoe_preprocessing.py
lines 31-64): concatenate the group's tables in file order, sort by
timestamp, drop duplicate `(timestamp, production_type)` keys keeping the
first, then derive the metadata from the merged table.  When the
concatenation is empty, `iloc[0]` / `.min()` raise and the per-group
`except` (lines 66-67) logs and skips the group, modelled by `none`.  The
`unit` column is present in every table of this model, so the
`if 'unit' in combined_df.columns` guard always takes its first branch. -/
def mergeGroup (k : GroupKey) (files : List MonthlyFile) (now : String) :
    Option YearlyArtifact :=
  let combined := canonicalize (files.flatMap MonthlyFile.table)
  match combined.head? with
  | none => none
  | some first =>
    let yearlyName := k.1 ++ "_" ++ k.2.1 ++ "_" ++ k.2.2.1 ++ "_" ++ k.2.2.2 ++ ".csv"
    some { csvName := yearlyName,
           table := combined,
           metaName := metaNameOf yearlyName,
           meta := { country := k.1, bidding_zone := k.2.1, dataset := k.2.2.1,
                     unit := first.unit,
                     period_start := (colMin (combined.map Row.timestamp)).getD 0,
                     period_end := (colMax (combined.map Row.timestamp)).getD 0,
                     retrieval_timestamp := now,
                     source_files := files.map MonthlyFile.name } }

/-- Embedding of `merge_monthly_to_yearly` over a monthly artifact store:
group the files by filename-derived key and merge each group; failed groups
are skipped. -/
def merge_monthly_to_yearly (files : List MonthlyFile) (now : String) :
    List YearlyArtifact :=
  (file_groups files).filterMap (fun g => mergeGroup g.1 g.2 now)

/-- Boolean test that a row carries a given deduplication key. -/
def hasKey (k : Int × String) (r : Row) : Bool := decide (rowKey r = k)

/-- Minutes since the Unix epoch of 2024-01-01T00:00:00Z
(1704067200 seconds). -/
def jan2024min : Int := 28401120

/-- A concrete quarter-hourly period starting 2024-01-01T00:00Z with points
at positions 1 to 4, the worked example of the specification. -/
def examplePeriod : Period :=
  { startTime := jan2024min, endTime := jan2024min + 60,
    resolution := some "PT15M",
    point := .many [⟨1, some 100, none⟩, ⟨2, some 110, none⟩,
                    ⟨3, some 120, none⟩, ⟨4, some 130, none⟩] }

/-- A concrete solar generation time series wrapping `examplePeriod`. -/
def exampleSeries : TimeSeries := { psrType := some "B16", period := .one examplePeriod }

/-- A parsed document holding exactly `exampleSeries` under the
`GL_MarketDocument` root. -/
def exampleDoc : ParsedDoc :=
  { glMarketDocument := some { timeSeries := some (.one exampleSeries) },
    publicationMarketDocument := none }

/-- A successful HTTP response carrying `exampleDoc`. -/
def exampleResponse : Response := { status := 200, body := .parsed exampleDoc }

/-- The table `retrieve_entsoe_data` assembles from `exampleResponse`:
four quarter-hour Solar rows. -/
def exampleDf : List Row :=
  [⟨jan2024min, "10Y1001A1001A83F", "actual_generation", "Solar", 100, "MW"⟩,
   ⟨jan2024min + 15, "10Y1001A1001A83F", "actual_generation", "Solar", 110, "MW"⟩,
   ⟨jan2024min + 30, "10Y1001A1001A83F", "actual_generation", "Solar", 120, "MW"⟩,
   ⟨jan2024min + 45, "10Y1001A1001A83F", "actual_generation", "Solar", 130, "MW"⟩]

/-- A small concrete row used to exercise the dedup and merge properties. -/
def exRow : Row := ⟨5, "a", "actual_load", "p", 1, "MW"⟩

/-- A row sharing `exRow`'s (timestamp, production_type) key but carrying a
different value. -/
def exRowDup : Row := ⟨5, "a", "actual_load", "p", 2, "MW"⟩

/-- A row with a key disjoint from `exRow`'s. -/
def exRowB : Row := ⟨6, "a", "actual_load", "q", 2, "MW"⟩

/-- A row sharing `exRow`'s timestamp but with a different production type:
`[exRow, exRowQ]` is sorted and deduplicated yet has a timestamp tie. -/
def exRowQ : Row := ⟨5, "a", "actual_load", "q", 3, "MW"⟩

/-- A two-row table whose rows share one deduplication key. -/
def exRows : List Row := [exRow, exRowDup]

/-- The yearly artifact produced by merging two monthly files that both
contain exactly `exRow`. -/
def exampleYearly : YearlyArtifact :=
  { csvName := "DE_actual_load_2024.csv",
    table := [exRow],
    metaName := "DE_actual_load_2024_metadata.json",
    meta := { country := "DE", bidding_zone := "actual", dataset := "load",
              unit := "MW", period_start := 5, period_end := 5,
              retrieval_timestamp := "now", source_files := ["f1.csv", "f2.csv"] } }

/-! ### Core lemmas about the shared sort-and-dedup pass -/

theorem sort_values_perm (l : List Row) : List.Perm (sort_values l) l :=
  List.perm_insertionSort rowLE l

theorem sort_values_sorted (l : List Row) : sortedByTimestamp (sort_values l) :=
  List.sorted_insertionSort rowLE l

theorem dedupSeen_sublist : ∀ (l : List Row) (seen : List (Int × String)),
    List.Sublist (dedupSeen l seen) l
  | [], _ => List.Sublist.refl []
  | r :: rest, seen => by
    unfold dedupSeen
    by_cases h : rowKey r ∈ seen
    · simp only [if_pos h]
      exact (dedupSeen_sublist rest seen).cons r
    · simp only [if_neg h]
      exact (dedupSeen_sublist rest (rowKey r :: seen)).cons₂ r

theorem dedupSeen_sorted {l : List Row} (seen : List (Int × String))
    (h : sortedByTimestamp l) : sortedByTimestamp (dedupSeen l seen) :=
  List.Pairwise.sublist (dedupSeen_sublist l seen) h

theorem dedupSeen_keys_not_seen : ∀ (l : List Row) (seen : List (Int × String))
    (k : Int × String), k ∈ (dedupSeen l seen).map rowKey → k ∉ seen
  | [], _, _ => by simp [dedupSeen]
  | r :: rest, seen, k => by
    unfold dedupSeen
    by_cases h : rowKey r ∈ seen
    · simp only [if_pos h]
      exact dedupSeen_keys_not_seen rest seen k
    · simp only [if_neg h, List.map_cons, List.mem_cons]
      intro hk
      rcases hk with hk | hk
      · subst hk; exact h
      · intro hs
        exact dedupSeen_keys_not_seen rest (rowKey r :: seen) k hk
          (List.mem_cons_of_mem _ hs)

theorem dedupSeen_keys_nodup : ∀ (l : List Row) (seen : List (Int × String)),
    ((dedupSeen l seen).map rowKey).Nodup
  | [], _ => by simp [dedupSeen]
  | r :: rest, seen => by
    unfold dedupSeen
    by_cases h : rowKey r ∈ seen
    · simp only [if_pos h]
      exact dedupSeen_keys_nodup rest seen
    · simp only [if_neg h, List.map_cons, List.nodup_cons]
      refine ⟨fun hmem => ?_, dedupSeen_keys_nodup rest (rowKey r :: seen)⟩
      exact dedupSeen_keys_not_seen rest (rowKey r :: seen) (rowKey r) hmem
        (List.mem_cons_self _ _)

theorem dedupSeen_eq_self : ∀ (l : List Row) (seen : List (Int × String)),
    (l.map rowKey).Nodup → (∀ k ∈ l.map rowKey, k ∉ seen) → dedupSeen l seen = l
  | [], _, _, _ => rfl
  | r :: rest, seen, h1, h2 => by
    have hr : rowKey r ∉ seen := h2 (rowKey r) (by simp)
    unfold dedupSeen
    simp only [if_neg hr]
    congr 1
    have h1' : rowKey r ∉ rest.map rowKey ∧ (rest.map rowKey).Nodup := by
      rw [List.map_cons, List.nodup_cons] at h1
      exact h1
    refine dedupSeen_eq_self rest (rowKey r :: seen) h1'.2 ?_
    intro k hk
    simp only [List.mem_cons]
    rintro (hke | hks)
    · exact h1'.1 (hke ▸ hk)
    · exact h2 k (List.mem_cons_of_mem _ hk) hks

theorem drop_duplicates_sublist (l : List Row) : List.Sublist (drop_duplicates l) l :=
  dedupSeen_sublist l []

theorem canonicalize_sorted (l : List Row) : sortedByTimestamp (canonicalize l) :=
  dedupSeen_sorted [] (sort_values_sorted l)

theorem canonicalize_uniqueKeys (l : List Row) : uniqueKeys (canonicalize l) :=
  dedupSeen_keys_nodup (sort_values l) []

theorem canonicalize_ne_nil {l : List Row} (h : l ≠ []) : canonicalize l ≠ [] := by
  have hlen : (sort_values l).length = l.length := (sort_values_perm l).length_eq
  have hs : sort_values l ≠ [] := by
    intro hnil
    apply h
    have := hlen
    rw [hnil] at this
    exact List.length_eq_zero.mp this.symm
  unfold canonicalize drop_duplicates
  cases hsv : sort_values l with
  | nil => exact absurd hsv hs
  | cons r rest =>
    unfold dedupSeen
    simp only [if_neg (List.not_mem_nil (rowKey r))]
    exact List.cons_ne_nil _ _

/-! ### Which row survives deduplication: the first of the scanned order -/

theorem filter_dedupSeen (k : Int × String) :
    ∀ (l : List Row) (seen : List (Int × String)),
    (dedupSeen l seen).filter (hasKey k) =
      if k ∈ seen then [] else (l.filter (hasKey k)).take 1
  | [], seen => by by_cases h : k ∈ seen <;> simp [dedupSeen, h]
  | r :: rest, seen => by
    unfold dedupSeen
    by_cases hseen : rowKey r ∈ seen
    · rw [if_pos hseen, filter_dedupSeen k rest seen]
      by_cases hk : k ∈ seen
      · simp [hk]
      · have hno : hasKey k r = false := by
          apply decide_eq_false
          intro he
          exact hk (he ▸ hseen)
        simp [hk, List.filter_cons, hno]
    · rw [if_neg hseen]
      by_cases hkr : rowKey r = k
      · have ht : hasKey k r = true := decide_eq_true hkr
        have hknot : k ∉ seen := hkr ▸ hseen
        have hin : k ∈ rowKey r :: seen := hkr ▸ List.mem_cons_self (rowKey r) seen
        rw [List.filter_cons]
        simp only [ht, if_true]
        rw [filter_dedupSeen k rest (rowKey r :: seen), if_pos hin]
        simp [List.filter_cons, ht, hknot]
      · have hf : hasKey k r = false := decide_eq_false hkr
        rw [List.filter_cons]
        simp only [hf, Bool.false_eq_true, if_false]
        rw [filter_dedupSeen k rest (rowKey r :: seen)]
        have hfil : (r :: rest).filter (hasKey k) = rest.filter (hasKey k) := by
          simp [List.filter_cons, hf]
        by_cases hk : k ∈ seen
        · rw [if_pos (List.mem_cons_of_mem _ hk), if_pos hk]
        · have hnot : k ∉ rowKey r :: seen := by
            intro hc
            rcases List.mem_cons.mp hc with h | h
            · exact hkr h.symm
            · exact hk h
          rw [if_neg hnot, if_neg hk, hfil]

theorem filter_eq_single_of_uniqueKeys {t : List Row} {r : Row}
    (hu : uniqueKeys t) (hr : r ∈ t) : t.filter (hasKey (rowKey r)) = [r] := by
  induction t with
  | nil => cases hr
  | cons s rest ih =>
    have hu' : rowKey s ∉ rest.map rowKey ∧ (rest.map rowKey).Nodup := by
      unfold uniqueKeys at hu
      rw [List.map_cons, List.nodup_cons] at hu
      exact hu
    rcases List.mem_cons.mp hr with he | hmem
    · subst he
      have ht : hasKey (rowKey r) r = true := decide_eq_true rfl
      rw [List.filter_cons]
      simp only [ht, if_true]
      have hnil : rest.filter (hasKey (rowKey r)) = [] := by
        rw [List.filter_eq_nil_iff]
        intro a ha hk
        have : rowKey a = rowKey r := of_decide_eq_true hk
        exact hu'.1 (this ▸ List.mem_map_of_mem rowKey ha)
      rw [hnil]
    · have hs : hasKey (rowKey r) s = false := by
        apply decide_eq_false
        intro he
        exact hu'.1 (he ▸ List.mem_map_of_mem rowKey hmem)
      rw [List.filter_cons]
      simp only [hs, Bool.false_eq_true, if_false]
      exact ih hu'.2 hmem

/-! ### The deduplicated table covers every timestamp of the input -/

theorem dedupSeen_key_cover : ∀ (l : List Row) (seen : List (Int × String))
    (r : Row), r ∈ l →
    rowKey r ∈ seen ∨ ∃ q ∈ dedupSeen l seen, rowKey q = rowKey r
  | [], _, r, hr => absurd hr (List.not_mem_nil r)
  | s :: rest, seen, r, hr => by
    unfold dedupSeen
    by_cases hs : rowKey s ∈ seen
    · rw [if_pos hs]
      rcases List.mem_cons.mp hr with he | hmem
      · subst he
        exact Or.inl hs
      · exact dedupSeen_key_cover rest seen r hmem
    · rw [if_neg hs]
      rcases List.mem_cons.mp hr with he | hmem
      · subst he
        exact Or.inr ⟨r, List.mem_cons_self _ _, rfl⟩
      · rcases dedupSeen_key_cover rest (rowKey s :: seen) r hmem with hc | ⟨q, hq, he⟩
        · rcases List.mem_cons.mp hc with he | hsn
          · exact Or.inr ⟨s, List.mem_cons_self _ _, he.symm⟩
          · exact Or.inl hsn
        · exact Or.inr ⟨q, List.mem_cons_of_mem _ hq, he⟩

theorem mem_ts_canonicalize (l : List Row) (x : Int) :
    x ∈ (canonicalize l).map Row.timestamp ↔ x ∈ l.map Row.timestamp := by
  constructor
  · intro hx
    rcases List.mem_map.mp hx with ⟨r, hr, he⟩
    have hr' : r ∈ l :=
      (sort_values_perm l).subset ((dedupSeen_sublist (sort_values l) []).subset hr)
    rw [← he]
    exact List.mem_map_of_mem Row.timestamp hr'
  · intro hx
    rcases List.mem_map.mp hx with ⟨r, hr, he⟩
    have hr2 : r ∈ sort_values l := (sort_values_perm l).mem_iff.mpr hr
    rcases dedupSeen_key_cover (sort_values l) [] r hr2 with hc | ⟨q, hq, hkey⟩
    · exact absurd hc (List.not_mem_nil _)
    · have hts : q.timestamp = r.timestamp := congrArg Prod.fst hkey
      have hmem : q.timestamp ∈ (canonicalize l).map Row.timestamp :=
        List.mem_map_of_mem Row.timestamp hq
      rw [← he, ← hts]
      exact hmem

/-! ### Column minimum and maximum -/

theorem foldl_min_le_init : ∀ (l : List Int) (a : Int), l.foldl min a ≤ a
  | [], a => le_refl a
  | x :: xs, a =>
    le_trans (foldl_min_le_init xs (min a x)) (min_le_left a x)

theorem foldl_min_le_mem : ∀ (l : List Int) (a x : Int), x ∈ l → l.foldl min a ≤ x
  | [], _, x, hx => absurd hx (List.not_mem_nil x)
  | y :: ys, a, x, hx => by
    rcases List.mem_cons.mp hx with he | hmem
    · subst he
      exact le_trans (foldl_min_le_init ys (min a x)) (min_le_right a x)
    · exact foldl_min_le_mem ys (min a y) x hmem

theorem foldl_min_mem : ∀ (l : List Int) (a : Int), l.foldl min a = a ∨ l.foldl min a ∈ l
  | [], a => Or.inl rfl
  | x :: xs, a => by
    rcases foldl_min_mem xs (min a x) with he | hmem
    · rcases min_choice a x with hc | hc
      · exact Or.inl (by rw [List.foldl_cons, he, hc])
      · refine Or.inr ?_
        rw [List.foldl_cons, he, hc]
        exact List.mem_cons_self x xs
    · exact Or.inr (List.mem_cons_of_mem x hmem)

theorem colMin_spec {l : List Int} {m : Int} (h : colMin l = some m) :
    m ∈ l ∧ ∀ x ∈ l, m ≤ x := by
  cases l with
  | nil => cases h
  | cons t rest =>
    have hm : m = rest.foldl min t := by
      unfold colMin at h
      exact (Option.some.inj h).symm
    subst hm
    constructor
    · rcases foldl_min_mem rest t with he | hmem
      · rw [he]
        exact List.mem_cons_self t rest
      · exact List.mem_cons_of_mem t hmem
    · intro x hx
      rcases List.mem_cons.mp hx with he | hmem
      · subst he
        exact foldl_min_le_init rest x
      · exact foldl_min_le_mem rest t x hmem

theorem foldl_max_init_le : ∀ (l : List Int) (a : Int), a ≤ l.foldl max a
  | [], a => le_refl a
  | x :: xs, a =>
    le_trans (le_max_left a x) (foldl_max_init_le xs (max a x))

theorem foldl_max_mem_le : ∀ (l : List Int) (a x : Int), x ∈ l → x ≤ l.foldl max a
  | [], _, x, hx => absurd hx (List.not_mem_nil x)
  | y :: ys, a, x, hx => by
    rcases List.mem_cons.mp hx with he | hmem
    · subst he
      exact le_trans (le_max_right a x) (foldl_max_init_le ys (max a x))
    · exact foldl_max_mem_le ys (max a y) x hmem

theorem foldl_max_mem : ∀ (l : List Int) (a : Int), l.foldl max a = a ∨ l.foldl max a ∈ l
  | [], a => Or.inl rfl
  | x :: xs, a => by
    rcases foldl_max_mem xs (max a x) with he | hmem
    · rcases max_choice a x with hc | hc
      · exact Or.inl (by rw [List.foldl_cons, he, hc])
      · refine Or.inr ?_
        rw [List.foldl_cons, he, hc]
        exact List.mem_cons_self x xs
    · exact Or.inr (List.mem_cons_of_mem x hmem)

theorem colMax_spec {l : List Int} {m : Int} (h : colMax l = some m) :
    m ∈ l ∧ ∀ x ∈ l, x ≤ m := by
  cases l with
  | nil => cases h
  | cons t rest =>
    have hm : m = rest.foldl max t := by
      unfold colMax at h
      exact (Option.some.inj h).symm
    subst hm
    constructor
    · rcases foldl_max_mem rest t with he | hmem
      · rw [he]
        exact List.mem_cons_self t rest
      · exact List.mem_cons_of_mem t hmem
    · intro x hx
      rcases List.mem_cons.mp hx with he | hmem
      · subst he
        exact foldl_max_init_le rest x
      · exact foldl_max_mem_le rest t x hmem

theorem colMin_eq_of_mem_iff {l1 l2 : List Int} (h : ∀ x, x ∈ l1 ↔ x ∈ l2) :
    colMin l1 = colMin l2 := by
  cases h1 : colMin l1 with
  | none =>
    cases l2 with
    | nil => rfl
    | cons t rest =>
      cases l1 with
      | nil => exact absurd ((h t).mpr (List.mem_cons_self t rest)) (List.not_mem_nil t)
      | cons a b => cases h1
  | some m1 =>
    cases h2 : colMin l2 with
    | none =>
      cases l2 with
      | nil =>
        rcases colMin_spec h1 with ⟨hmem, _⟩
        exact absurd ((h m1).mp hmem) (List.not_mem_nil m1)
      | cons a b => cases h2
    | some m2 =>
      rcases colMin_spec h1 with ⟨hm1, hle1⟩
      rcases colMin_spec h2 with ⟨hm2, hle2⟩
      have hab : m1 ≤ m2 := hle1 m2 ((h m2).mpr hm2)
      have hba : m2 ≤ m1 := hle2 m1 ((h m1).mp hm1)
      rw [le_antisymm hab hba]

theorem colMax_eq_of_mem_iff {l1 l2 : List Int} (h : ∀ x, x ∈ l1 ↔ x ∈ l2) :
    colMax l1 = colMax l2 := by
  cases h1 : colMax l1 with
  | none =>
    cases l2 with
    | nil => rfl
    | cons t rest =>
      cases l1 with
      | nil => exact absurd ((h t).mpr (List.mem_cons_self t rest)) (List.not_mem_nil t)
      | cons a b => cases h1
  | some m1 =>
    cases h2 : colMax l2 with
    | none =>
      cases l2 with
      | nil =>
        rcases colMax_spec h1 with ⟨hmem, _⟩
        exact absurd ((h m1).mp hmem) (List.not_mem_nil m1)
      | cons a b => cases h2
    | some m2 =>
      rcases colMax_spec h1 with ⟨hm1, hle1⟩
      rcases colMax_spec h2 with ⟨hm2, hle2⟩
      have hab : m1 ≤ m2 := hle2 m1 ((h m1).mp hm1)
      have hba : m2 ≤ m1 := hle1 m2 ((h m2).mpr hm2)
      rw [le_antisymm hba hab]

theorem colMin_ts_canonicalize (l : List Row) :
    colMin ((canonicalize l).map Row.timestamp) = colMin (l.map Row.timestamp) :=
  colMin_eq_of_mem_iff (mem_ts_canonicalize l)

theorem colMax_ts_canonicalize (l : List Row) :
    colMax ((canonicalize l).map Row.timestamp) = colMax (l.map Row.timestamp) :=
  colMax_eq_of_mem_iff (mem_ts_canonicalize l)

/-! ### Driver iteration lemmas -/

theorem seqRun_ok {α : Type} (f : α → List Event × Option Exn) :
    ∀ l : List α, (∀ a ∈ l, (f a).2 = none) →
    seqRun f l = (l.flatMap (fun a => (f a).1), none) := by
  intro l
  induction l with
  | nil => intro _; rfl
  | cons a rest ih =>
    intro h
    have ha := h a (List.mem_cons_self a rest)
    have hrest := ih (fun b hb => h b (List.mem_cons_of_mem a hb))
    simp only [seqRun, ha, hrest, List.flatMap_cons]

theorem processUnit_no_raise {country area : String} {zl : Option String} {dk : String}
    {sd ed : PyDate} {now : String} {resp : Response}
    (h : fetchRaises dk area resp = false) :
    (processUnit country area zl dk sd ed now resp).2 = none ∧
      Event.fetchAttempt dk area ∈ (processUnit country area zl dk sd ed now resp).1 := by
  unfold fetchRaises at h
  unfold processUnit
  cases ht : (retrieve_entsoe_data dk area resp).table with
  | error e => rw [ht] at h; simp at h
  | ok res =>
    have hds : (DATASETS dk).isSome = true := by
      cases hD : DATASETS dk with
      | none =>
        unfold retrieve_entsoe_data at ht
        rw [hD] at ht
        cases ht
      | some _ => rfl
    cases res with
    | none => simp [ht, hds]
    | some df =>
      by_cases hemp : df.isEmpty <;> simp [ht, hds, hemp]

theorem datasetStep_no_raise {country : String × String} {dk : String}
    {sd ed : PyDate} {now : String} {fetch : String → String → Response}
    (h : ∀ area ∈ unitAreas country dk, fetchRaises dk area (fetch dk area) = false) :
    (datasetStep country dk sd ed now fetch).2 = none ∧
    ∀ area ∈ unitAreas country dk,
      Event.fetchAttempt dk area ∈ (datasetStep country dk sd ed now fetch).1 := by
  unfold datasetStep
  unfold unitAreas at h ⊢
  by_cases hdk : dk = "day_ahead_prices"
  · simp only [if_pos hdk] at h ⊢
    have hok : ∀ zone ∈ zonesFor country.1 country.2,
        (processUnit country.1 zone.1 (some zone.2) dk sd ed now (fetch dk zone.1)).2 = none :=
      fun zone hz =>
        (processUnit_no_raise (h zone.1 (List.mem_map_of_mem Prod.fst hz))).1
    rw [seqRun_ok _ _ hok]
    refine ⟨rfl, ?_⟩
    intro area ha
    rcases List.mem_map.mp ha with ⟨zone, hz, he⟩
    subst he
    exact List.mem_flatMap.mpr
      ⟨zone, hz, (processUnit_no_raise (h zone.1 (List.mem_map_of_mem Prod.fst hz))).2⟩
  · simp only [if_neg hdk] at h ⊢
    have hr := h country.2 (List.mem_singleton.mpr rfl)
    refine ⟨(processUnit_no_raise hr).1, ?_⟩
    intro area ha
    rcases List.mem_singleton.mp ha with rfl
    exact (processUnit_no_raise hr).2

theorem countryStep_no_raise {country : String × String} {datasets : List String}
    {sd ed : PyDate} {now : String} {fetch : String → String → Response}
    (h : ∀ dk ∈ datasets, ∀ area ∈ unitAreas country dk,
      fetchRaises dk area (fetch dk area) = false) :
    (countryStep country datasets sd ed now fetch).2 = none ∧
    ∀ dk ∈ datasets, ∀ area ∈ unitAreas country dk,
      Event.fetchAttempt dk area ∈ (countryStep country datasets sd ed now fetch).1 := by
  unfold countryStep
  have hok : ∀ dk ∈ datasets, (datasetStep country dk sd ed now fetch).2 = none :=
    fun dk hdk => (datasetStep_no_raise (h dk hdk)).1
  rw [seqRun_ok _ _ hok]
  refine ⟨rfl, ?_⟩
  intro dk hdk area ha
  exact List.mem_flatMap.mpr ⟨dk, hdk, (datasetStep_no_raise (h dk hdk)).2 area ha⟩

theorem retrieve_entsoe_datasets_no_raise {countries : List (String × String)}
    {datasets : List String} {sd ed : PyDate} {now : String}
    {fetch : String → String → Response}
    (h : ∀ u ∈ unitsOf countries datasets, fetchRaises u.1 u.2 (fetch u.1 u.2) = false) :
    (retrieve_entsoe_datasets countries datasets sd ed now fetch).2 = none ∧
    ∀ u ∈ unitsOf countries datasets,
      Event.fetchAttempt u.1 u.2 ∈ (retrieve_entsoe_datasets countries datasets sd ed now fetch).1 := by
  have h' : ∀ country ∈ countries, ∀ dk ∈ datasets, ∀ area ∈ unitAreas country dk,
      fetchRaises dk area (fetch dk area) = false := by
    intro country hc dk hdk area ha
    exact h (dk, area) (List.mem_flatMap.mpr ⟨country, hc,
      List.mem_flatMap.mpr ⟨dk, hdk, List.mem_map_of_mem _ ha⟩⟩)
  unfold retrieve_entsoe_datasets
  have hok : ∀ country ∈ countries, (countryStep country datasets sd ed now fetch).2 = none :=
    fun country hc => (countryStep_no_raise (h' country hc)).1
  rw [seqRun_ok _ _ hok]
  refine ⟨rfl, ?_⟩
  intro u hu
  rcases List.mem_flatMap.mp hu with ⟨country, hc, hu2⟩
  rcases List.mem_flatMap.mp hu2 with ⟨dk, hdk, hu3⟩
  rcases List.mem_map.mp hu3 with ⟨area, ha, he⟩
  subst he
  exact List.mem_flatMap.mpr ⟨country, hc,
    (countryStep_no_raise (h' country hc)).2 dk hdk area ha⟩

theorem retrieve_monthly_no_raise {countries : List (String × String)}
    {datasets : List String} {year : Nat} {now : String}
    {fetch : Nat → String → String → Response}
    (h : ∀ m ∈ List.range' 1 12, ∀ u ∈ unitsOf countries datasets,
      fetchRaises u.1 u.2 (fetch m u.1 u.2) = false) :
    (retrieve_monthly_entsoe_datasets countries datasets year now fetch).2 = none ∧
    ∀ m ∈ List.range' 1 12, ∀ u ∈ unitsOf countries datasets,
      Event.fetchAttempt u.1 u.2 ∈
        (retrieve_monthly_entsoe_datasets countries datasets year now fetch).1 := by
  unfold retrieve_monthly_entsoe_datasets
  have hok : ∀ m ∈ List.range' 1 12,
      (retrieve_entsoe_datasets countries datasets (monthStartDate year m)
        (monthEndDate year m) now (fetch m)).2 = none :=
    fun m hm => (retrieve_entsoe_datasets_no_raise (h m hm)).1
  rw [seqRun_ok _ _ hok]
  refine ⟨rfl, ?_⟩
  intro m hm u hu
  exact List.mem_flatMap.mpr ⟨m, hm, (retrieve_entsoe_datasets_no_raise (h m hm)).2 u hu⟩

/-! ### Shape of a successful fetch -/

theorem retrieve_table_ok_some {dk area : String} {resp : Response} {df : List Row}
    (h : (retrieve_entsoe_data dk area resp).table = .ok (some df)) :
    ∃ records : List Row, df = canonicalize records := by
  unfold retrieve_entsoe_data at h
  split at h
  · simp at h
  · split at h
    · simp at h
    · split at h
      · simp at h
      · split at h
        · simp at h
        · split at h
          · simp at h
          · split at h
            · simp at h
            · exact ⟨_, (Option.some.inj (Except.ok.inj h)).symm⟩

/-! ### Claim theorems -/

/-- C1, counterexample: the merge engine parses
`DE_actual_load_20240101_20240201.csv` into the key
`("DE", "actual", "load", "2024")` — the sub-zone slot is occupied by
`"actual"` (the first word of the dataset name) and the dataset slot holds
only `"load"`, so the claimed key `(DE, actual_load, 2024)` with an absent
sub-zone is not what the code derives. -/
theorem c1_groupkey_counterexample :
    groupKeyOf "DE_actual_load_20240101_20240201.csv" =
      some ("DE", "actual", "load", "2024") ∧
    groupKeyOf "DE_actual_load_20240201_20240301.csv" =
      some ("DE", "actual", "load", "2024") ∧
    ("DE", "actual", "load", "2024").2.1 ≠ "" ∧
    ("DE", "actual", "load", "2024").2.2.1 ≠ "actual_load" := by
  decide

/-- C1, amended: the Yearly Merge Engine derives the grouping key purely
from the filename, and the two monthly files
`DE_actual_load_20240101_20240201.csv` and
`DE_actual_load_20240201_20240301.csv` do land in one common group for the
year 2024 — but under the key `("DE", "actual", "load", "2024")`, whose
sub-zone field holds `"actual"` rather than being absent, because the
underscore in `actual_load` is misread as the entity / sub-zone separator. -/
theorem c1_groupkey_amended (t1 t2 : List Row) :
    file_groups [⟨"DE_actual_load_20240101_20240201.csv", t1⟩,
                 ⟨"DE_actual_load_20240201_20240301.csv", t2⟩] =
      [(("DE", "actual", "load", "2024"),
        [⟨"DE_actual_load_20240101_20240201.csv", t1⟩,
         ⟨"DE_actual_load_20240201_20240301.csv", t2⟩])] := by
  rfl

/-- C6: for every parsed point the timestamp is
`interval start + step * (position - 1)`; the resolution code PT15M maps to
a 15-minute step, PT30M to 30 minutes, anything else or a missing code to 60
minutes; and the worked quarter-hour example starting 2024-01-01T00:00Z with
positions 1..4 yields 00:00, 00:15, 00:30, 00:45 UTC. -/
theorem c6_point_timestamps :
    (∀ (dk area pt u : String) (p : Period),
      (periodRecords dk area pt u p).map Row.timestamp =
        (p.point.toList.filter (fun point => (pointValueOf point).isSome)).map
          (fun point => p.startTime + stepMinutes p.resolution * (point.position - 1))) ∧
    (∀ res : Option String, stepMinutes res =
      if res = some "PT15M" then 15 else if res = some "PT30M" then 30 else 60) ∧
    ((periodRecords "actual_generation" "10Y1001A1001A83F" "Solar" "MW"
        examplePeriod).map Row.timestamp =
      [jan2024min, jan2024min + 15, jan2024min + 30, jan2024min + 45]) := by
  refine ⟨?_, ?_, ?_⟩
  · intro dk area pt u p
    unfold periodRecords
    generalize p.point.toList = pts
    induction pts with
    | nil => rfl
    | cons x xs ih =>
      cases hv : pointValueOf x with
      | none => simp [List.filterMap_cons, List.filter_cons, hv, ih]
      | some v => simp [List.filterMap_cons, List.filter_cons, hv, ih]
  · intro res
    cases res with
    | none => simp [stepMinutes]
    | some r =>
      by_cases h15 : r = "PT15M"
      · simp [stepMinutes, h15]
      · by_cases h30 : r = "PT30M"
        · simp [stepMinutes, h15, h30]
        · simp [stepMinutes, h15, h30]
  · decide

/-- C8: when the response has a non-200 status, or parses to no recognized
document root, or to a root without a `TimeSeries` element, the unit of work
produces no file write at all (its trace is just the fetch attempt) and no
exception escapes — the unit is skipped. -/
theorem c8_skip_writes_nothing (country area : String) (zl : Option String)
    (dk : String) (sd ed : PyDate) (now : String) (resp : Response)
    (hdk : (DATASETS dk).isSome = true)
    (h : resp.status ≠ 200 ∨
      (∃ d, resp.body = .parsed d ∧ marketDocOf d = none) ∨
      (∃ d doc, resp.body = .parsed d ∧ marketDocOf d = some doc ∧
        doc.timeSeries = none)) :
    (processUnit country area zl dk sd ed now resp).1 =
      [Event.fetchAttempt dk area] ∧
    (processUnit country area zl dk sd ed now resp).2 = none := by
  obtain ⟨cfg, hcfg⟩ := Option.isSome_iff_exists.mp hdk
  have ht : (retrieve_entsoe_data dk area resp).table = .ok none := by
    by_cases hst : resp.status ≠ 200
    · simp [retrieve_entsoe_data, hcfg, hst]
    · rcases h with h | ⟨d, hd, hm⟩ | ⟨d, doc, hd, hm, hts2⟩
      · exact absurd h hst
      · simp [retrieve_entsoe_data, hcfg, hst, hd, hm]
      · simp [retrieve_entsoe_data, hcfg, hst, hd, hm, hts2]
  have hds : (DATASETS dk).isSome = true := hdk
  constructor <;> simp [processUnit, ht, hds]

/-- C8 witness: a 404 response for Germany's load unit leaves a trace of
exactly one fetch attempt, writes nothing, and raises nothing. -/
theorem c8_skip_writes_nothing_witness :
    (processUnit "Germany" "10Y1001A1001A83F" none "actual_load"
      ⟨2024, 1, 1⟩ ⟨2024, 2, 1⟩ "now" ⟨404, .malformed⟩).1 =
      [Event.fetchAttempt "actual_load" "10Y1001A1001A83F"] ∧
    (processUnit "Germany" "10Y1001A1001A83F" none "actual_load"
      ⟨2024, 1, 1⟩ ⟨2024, 2, 1⟩ "now" ⟨404, .malformed⟩).2 = none :=
  c8_skip_writes_nothing "Germany" "10Y1001A1001A83F" none "actual_load"
    ⟨2024, 1, 1⟩ ⟨2024, 2, 1⟩ "now" ⟨404, .malformed⟩ (by decide)
    (Or.inl (by decide))

/-- C9, counterexample: the metadata written beside the non-price monthly
CSV has exactly the keys country, area_code, dataset, unit, period_start,
period_end, retrieval_timestamp — there is no `source_files` field and no
`retrieved_timestamp` field, contradicting the claimed field list. -/
theorem c9_monthly_metadata_counterexample :
    (plainMonthlyMetadata "Germany" "10Y1001A1001A83F" "actual_load"
        ⟨2024, 1, 1⟩ ⟨2024, 2, 1⟩ "now").map Prod.fst =
      ["country", "area_code", "dataset", "unit", "period_start",
       "period_end", "retrieval_timestamp"] ∧
    "source_files" ∉ (plainMonthlyMetadata "Germany" "10Y1001A1001A83F"
        "actual_load" ⟨2024, 1, 1⟩ ⟨2024, 2, 1⟩ "now").map Prod.fst ∧
    "retrieved_timestamp" ∉ (plainMonthlyMetadata "Germany" "10Y1001A1001A83F"
        "actual_load" ⟨2024, 1, 1⟩ ⟨2024, 2, 1⟩ "now").map Prod.fst := by
  decide

/-- C9, amended: every monthly metadata file contains exactly the fields
country, bidding_zone (present only for price-zone artifacts), area_code,
dataset, unit, period_start, period_end and retrieval_timestamp, in this
order; monthly metadata carries no source-file list (only the yearly
metadata does). -/
theorem c9_monthly_metadata_fields (country zoneLabel zoneCode areaCode dk : String)
    (sd ed : PyDate) (now : String) :
    (priceMonthlyMetadata country zoneLabel zoneCode dk sd ed now).map Prod.fst =
      ["country", "bidding_zone", "area_code", "dataset", "unit",
       "period_start", "period_end", "retrieval_timestamp"] ∧
    (plainMonthlyMetadata country areaCode dk sd ed now).map Prod.fst =
      ["country", "area_code", "dataset", "unit", "period_start",
       "period_end", "retrieval_timestamp"] :=
  ⟨rfl, rfl⟩

/-- C10: a non-200 response, a response with no recognized document root,
and a response whose root lacks a `TimeSeries` element all make the single
fetch return the same sentinel (`None`), so its caller cannot tell them
apart by the return value; the three cases differ only in the log level
emitted (error for the transport failure, warning for the other two). -/
theorem c10_sentinel_conflation (dk area : String) (r1 r2 r3 : Response)
    (hdk : (DATASETS dk).isSome = true)
    (h1 : r1.status ≠ 200)
    (h2 : r2.status = 200 ∧ ∃ d, r2.body = .parsed d ∧ marketDocOf d = none)
    (h3 : r3.status = 200 ∧ ∃ d doc, r3.body = .parsed d ∧
      marketDocOf d = some doc ∧ doc.timeSeries = none) :
    (retrieve_entsoe_data dk area r1).table = .ok none ∧
    (retrieve_entsoe_data dk area r2).table = .ok none ∧
    (retrieve_entsoe_data dk area r3).table = .ok none ∧
    (retrieve_entsoe_data dk area r1).table = (retrieve_entsoe_data dk area r2).table ∧
    (retrieve_entsoe_data dk area r1).logs = [.info, .error] ∧
    (retrieve_entsoe_data dk area r2).logs = [.info, .warning] ∧
    (retrieve_entsoe_data dk area r3).logs = [.info, .warning] := by
  obtain ⟨cfg, hcfg⟩ := Option.isSome_iff_exists.mp hdk
  obtain ⟨hs2, d2, hb2, hm2⟩ := h2
  obtain ⟨hs3, d3, doc3, hb3, hm3, hts3⟩ := h3
  refine ⟨?_, ?_, ?_, ?_, ?_, ?_, ?_⟩ <;>
    simp [retrieve_entsoe_data, hcfg, h1, hs2, hs3, hb2, hb3, hm2, hm3, hts3]

/-- C10 witness: a 404, a rootless 200 and a TimeSeries-less 200 for the
load dataset all return the sentinel with the stated log levels. -/
theorem c10_sentinel_conflation_witness :
    (retrieve_entsoe_data "actual_load" "DE" ⟨404, .malformed⟩).table = .ok none ∧
    (retrieve_entsoe_data "actual_load" "DE" ⟨200, .parsed ⟨none, none⟩⟩).table = .ok none ∧
    (retrieve_entsoe_data "actual_load" "DE" ⟨200, .parsed ⟨some ⟨none⟩, none⟩⟩).table = .ok none ∧
    (retrieve_entsoe_data "actual_load" "DE" ⟨404, .malformed⟩).table =
      (retrieve_entsoe_data "actual_load" "DE" ⟨200, .parsed ⟨none, none⟩⟩).table ∧
    (retrieve_entsoe_data "actual_load" "DE" ⟨404, .malformed⟩).logs = [.info, .error] ∧
    (retrieve_entsoe_data "actual_load" "DE" ⟨200, .parsed ⟨none, none⟩⟩).logs = [.info, .warning] ∧
    (retrieve_entsoe_data "actual_load" "DE" ⟨200, .parsed ⟨some ⟨none⟩, none⟩⟩).logs = [.info, .warning] :=
  c10_sentinel_conflation "actual_load" "DE" ⟨404, .malformed⟩
    ⟨200, .parsed ⟨none, none⟩⟩ ⟨200, .parsed ⟨some ⟨none⟩, none⟩⟩
    (by decide) (by decide) ⟨by decide, ⟨none, none⟩, by decide, by decide⟩
    ⟨by decide, ⟨some ⟨none⟩, none⟩, ⟨none⟩, by decide, by decide, by decide⟩

/-- Inversion for a successful merge: the yearly table is the canonical form
of the concatenated member tables. -/
theorem mergeGroup_table {k : GroupKey} {files : List MonthlyFile} {now : String}
    {a : YearlyArtifact} (h : mergeGroup k files now = some a) :
    a.table = canonicalize (files.flatMap MonthlyFile.table) := by
  simp only [mergeGroup] at h
  split at h
  · cases h
  · rw [← Option.some.inj h]

/-- C2, counterexample: with Germany before France in the country list and a
200 response whose body is unparseable for Germany's unit, the parse
exception escapes the driver — Germany's unit was attempted, France's unit
is never attempted, so a single malformed unit aborts the remaining
iterations rather than being caught per unit. -/
theorem c2_abort_counterexample :
    (retrieve_entsoe_datasets
        [("Germany", "10Y1001A1001A83F"), ("France", "10YFR-RTE------C")]
        ["actual_load"] ⟨2024, 1, 1⟩ ⟨2024, 2, 1⟩ "now"
        (fun _ area => if area = "10Y1001A1001A83F" then ⟨200, .malformed⟩
          else exampleResponse)).2 = some .expatError ∧
    Event.fetchAttempt "actual_load" "10Y1001A1001A83F" ∈
      (retrieve_entsoe_datasets
        [("Germany", "10Y1001A1001A83F"), ("France", "10YFR-RTE------C")]
        ["actual_load"] ⟨2024, 1, 1⟩ ⟨2024, 2, 1⟩ "now"
        (fun _ area => if area = "10Y1001A1001A83F" then ⟨200, .malformed⟩
          else exampleResponse)).1 ∧
    Event.fetchAttempt "actual_load" "10YFR-RTE------C" ∉
      (retrieve_entsoe_datasets
        [("Germany", "10Y1001A1001A83F"), ("France", "10YFR-RTE------C")]
        ["actual_load"] ⟨2024, 1, 1⟩ ⟨2024, 2, 1⟩ "now"
        (fun _ area => if area = "10Y1001A1001A83F" then ⟨200, .malformed⟩
          else exampleResponse)).1 := by
  decide

/-- C2, amended: failures that the single fetch reports by returning `None`
(non-200 status, missing document root, missing TimeSeries) are isolated per
unit of work: as long as no unit raises a Python exception, the whole
months x entities x datasets iteration runs to completion with no error and
every unit is attempted, whatever the responses contain.  An exception
raised while fetching or parsing one unit (for example an unparseable 200
body), however, propagates out of the driver's loops — which have no
try/except — and aborts every remaining unit of the stage. -/
theorem c2_unit_isolation (countries : List (String × String)) (datasets : List String)
    (year : Nat) (now : String) (fetch : Nat → String → String → Response)
    (h : ∀ m ∈ List.range' 1 12, ∀ u ∈ unitsOf countries datasets,
      fetchRaises u.1 u.2 (fetch m u.1 u.2) = false) :
    (retrieve_monthly_entsoe_datasets countries datasets year now fetch).2 = none ∧
    ∀ m ∈ List.range' 1 12, ∀ u ∈ unitsOf countries datasets,
      Event.fetchAttempt u.1 u.2 ∈
        (retrieve_monthly_entsoe_datasets countries datasets year now fetch).1 :=
  retrieve_monthly_no_raise h

/-- C2 witness: every unit of a one-country sweep answered by a 404 in all
twelve months is attempted and nothing escapes — a failing (but non-raising)
unit does not abort the iteration. -/
theorem c2_unit_isolation_witness :
    (retrieve_monthly_entsoe_datasets [("Germany", "10Y1001A1001A83F")]
        ["actual_load"] 2024 "now" (fun _ _ _ => ⟨404, .malformed⟩)).2 = none ∧
    ∀ m ∈ List.range' 1 12,
      ∀ u ∈ unitsOf [("Germany", "10Y1001A1001A83F")] ["actual_load"],
      Event.fetchAttempt u.1 u.2 ∈
        (retrieve_monthly_entsoe_datasets [("Germany", "10Y1001A1001A83F")]
          ["actual_load"] 2024 "now" (fun _ _ _ => ⟨404, .malformed⟩)).1 :=
  c2_unit_isolation [("Germany", "10Y1001A1001A83F")] ["actual_load"] 2024 "now"
    (fun _ _ _ => ⟨404, .malformed⟩) (by decide)

/-- C3: every persisted artifact table — the monthly table returned by a
successful fetch and the yearly table produced by a merge group — is sorted
ascending by timestamp and has pairwise-distinct
(timestamp, production_type) pairs. -/
theorem c3_artifact_invariant :
    (∀ (dk area : String) (resp : Response) (df : List Row),
      (retrieve_entsoe_data dk area resp).table = .ok (some df) →
      sortedByTimestamp df ∧ uniqueKeys df) ∧
    (∀ (k : GroupKey) (files : List MonthlyFile) (now : String) (a : YearlyArtifact),
      mergeGroup k files now = some a →
      sortedByTimestamp a.table ∧ uniqueKeys a.table) := by
  constructor
  · intro dk area resp df h
    rcases retrieve_table_ok_some h with ⟨records, he⟩
    rw [he]
    exact ⟨canonicalize_sorted records, canonicalize_uniqueKeys records⟩
  · intro k files now a h
    rw [mergeGroup_table h]
    exact ⟨canonicalize_sorted _, canonicalize_uniqueKeys _⟩

/-- C3 witness: the concrete monthly table assembled from `exampleResponse`
and the concrete yearly table of `exampleYearly` both satisfy the
invariant. -/
theorem c3_artifact_invariant_witness :
    (sortedByTimestamp exampleDf ∧ uniqueKeys exampleDf) ∧
    (sortedByTimestamp exampleYearly.table ∧ uniqueKeys exampleYearly.table) :=
  ⟨c3_artifact_invariant.1 "actual_generation" "10Y1001A1001A83F" exampleResponse
      exampleDf (by rfl),
   c3_artifact_invariant.2 ("DE", "actual", "load", "2024")
      [⟨"f1.csv", [exRow]⟩, ⟨"f2.csv", [exRow]⟩] "now" exampleYearly (by decide)⟩

/-- A deduplication scan retains exactly one row for a key when every row of
the list carrying that key is one and the same row: that row survives,
exactly once. -/
theorem count_drop_duplicates_eq_one {l : List Row} {r : Row} (hmem : r ∈ l)
    (hall : ∀ x ∈ l, rowKey x = rowKey r → x = r) :
    (drop_duplicates l).count r = 1 := by
  have hne : l.filter (hasKey (rowKey r)) ≠ [] := by
    intro hnil
    have hrmem : r ∈ l.filter (hasKey (rowKey r)) :=
      List.mem_filter.mpr ⟨hmem, decide_eq_true rfl⟩
    rw [hnil] at hrmem
    exact List.not_mem_nil r hrmem
  cases hf : l.filter (hasKey (rowKey r)) with
  | nil => exact absurd hf hne
  | cons x xs =>
    have hx : x = r := by
      have hxmem : x ∈ l.filter (hasKey (rowKey r)) := by
        rw [hf]
        exact List.mem_cons_self x xs
      rcases List.mem_filter.mp hxmem with ⟨hxl, hxk⟩
      exact hall x hxl (of_decide_eq_true hxk)
    have hfil : (drop_duplicates l).filter (hasKey (rowKey r)) = [r] := by
      unfold drop_duplicates
      rw [filter_dedupSeen (rowKey r) l [], if_neg (List.not_mem_nil (rowKey r)),
        hf, hx]
      rfl
    have hself : hasKey (rowKey r) r = true := decide_eq_true rfl
    have hcount := List.count_filter (l := drop_duplicates l) hself
    rw [← hcount, hfil]
    simp

/-- Sorted permutations of each other with pairwise-distinct timestamps are
equal: without timestamp ties the ascending order is unique, so the sort's
unspecified tie order cannot show. -/
theorem eq_of_sorted_perm_ts_nodup : ∀ {l1 l2 : List Row}, List.Perm l1 l2 →
    sortedByTimestamp l1 → sortedByTimestamp l2 →
    (l2.map Row.timestamp).Nodup → l1 = l2
  | [], l2, hp, _, _, _ => (List.Perm.eq_nil hp.symm).symm
  | a :: t1, [], hp, _, _, _ => absurd (List.Perm.eq_nil hp) (List.cons_ne_nil a t1)
  | a :: t1, b :: t2, hp, hs1, hs2, hnd => by
    have hab : a = b := by
      by_contra hne
      have ha2 : a ∈ t2 := by
        rcases List.mem_cons.mp (hp.subset (List.mem_cons_self a t1)) with h | h
        · exact absurd h hne
        · exact h
      have hb1 : b ∈ t1 := by
        rcases List.mem_cons.mp (hp.symm.subset (List.mem_cons_self b t2)) with h | h
        · exact absurd h (fun he => hne he.symm)
        · exact h
      have h1le : a.timestamp ≤ b.timestamp := List.rel_of_sorted_cons hs1 b hb1
      have h2le : b.timestamp ≤ a.timestamp := List.rel_of_sorted_cons hs2 a ha2
      have hmem : a.timestamp ∈ t2.map Row.timestamp :=
        List.mem_map_of_mem Row.timestamp ha2
      rw [List.map_cons, List.nodup_cons] at hnd
      apply hnd.1
      rw [le_antisymm h2le h1le]
      exact hmem
    subst hab
    have hnd2 : (t2.map Row.timestamp).Nodup := by
      rw [List.map_cons, List.nodup_cons] at hnd
      exact hnd.2
    rw [eq_of_sorted_perm_ts_nodup hp.cons_inv hs1.of_cons hs2.of_cons hnd2]

/-- C4, counterexample: the program sorts with pandas `sort_values` under
the default quicksort, which leaves the relative order of equal-timestamp
rows unspecified, so `[exRowDup, exRow]` is an admissible output of sorting
the flattened sequence `[exRow, exRowDup]` (two rows sharing one
(timestamp, production_type) key, `exRow` occurring first); on that output
`drop_duplicates(keep='first')` retains `exRowDup` and drops `exRow` — the
entry that occurred earliest in the flattened observation sequence is not
guaranteed to be the one retained. -/
theorem c4_first_seen_counterexample :
    sortsByTimestamp exRows [exRowDup, exRow] ∧
    (exRows.filter (hasKey (5, "p"))).take 1 = [exRow] ∧
    drop_duplicates [exRowDup, exRow] = [exRowDup] ∧
    exRowDup ≠ exRow := by
  refine ⟨by decide, by decide, by decide, by decide⟩

/-- C4 (amended): `keep='first'` keeps, for every key, exactly the first
key-matching row of the sorted sequence, and the sort leaves the order of
rows tied on a key unspecified — so the survivor is some input row with that
key, but not necessarily the one earliest in the flattened observation
sequence (see the counterexample).  For every admissible sort output: the
deduplicated table's rows with a given key are the first key-matching row of
that output; the key-matching rows of the output are a permutation of those
of the input; and when two monthly artifacts with key-unique tables share
one identical row, every admissible merged table contains that row exactly
once — this half of the original claim holds regardless of tie order. -/
theorem c4_dedup_first_of_sorted (rows mid : List Row) (kk : Int × String)
    (t1 t2 mid2 : List Row) (r : Row)
    (hs : sortsByTimestamp rows mid)
    (hu1 : uniqueKeys t1) (hu2 : uniqueKeys t2) (h1 : r ∈ t1) (h2 : r ∈ t2)
    (hs2 : sortsByTimestamp (t1 ++ t2) mid2) :
    (drop_duplicates mid).filter (hasKey kk) = (mid.filter (hasKey kk)).take 1 ∧
    List.Perm (mid.filter (hasKey kk)) (rows.filter (hasKey kk)) ∧
    (drop_duplicates mid2).count r = 1 := by
  refine ⟨?_, hs.1.filter (hasKey kk), ?_⟩
  · unfold drop_duplicates
    rw [filter_dedupSeen kk mid [], if_neg (List.not_mem_nil kk)]
  · have hrmem : r ∈ mid2 := hs2.1.mem_iff.mpr (List.mem_append.mpr (Or.inl h1))
    have hall : ∀ x ∈ mid2, rowKey x = rowKey r → x = r := by
      intro x hx hk
      rcases List.mem_append.mp (hs2.1.subset hx) with hxa | hxb
      · have hxf : x ∈ t1.filter (hasKey (rowKey r)) :=
          List.mem_filter.mpr ⟨hxa, decide_eq_true hk⟩
        rw [filter_eq_single_of_uniqueKeys hu1 h1] at hxf
        exact List.mem_singleton.mp hxf
      · have hxf : x ∈ t2.filter (hasKey (rowKey r)) :=
          List.mem_filter.mpr ⟨hxb, decide_eq_true hk⟩
        rw [filter_eq_single_of_uniqueKeys hu2 h2] at hxf
        exact List.mem_singleton.mp hxf
    exact count_drop_duplicates_eq_one hrmem hall

/-- C4 witness: on the stable output of sorting `exRows` the dedup keeps its
first key-(5,p) row; and merging two one-row artifacts both holding `exRow`
(an admissible sorted output of their concatenation being
`[exRow, exRow]`) retains `exRow` exactly once. -/
theorem c4_dedup_first_of_sorted_witness :
    (drop_duplicates [exRow, exRowDup]).filter (hasKey (5, "p")) =
      (([exRow, exRowDup] : List Row).filter (hasKey (5, "p"))).take 1 ∧
    List.Perm (([exRow, exRowDup] : List Row).filter (hasKey (5, "p")))
      (exRows.filter (hasKey (5, "p"))) ∧
    (drop_duplicates [exRow, exRow]).count exRow = 1 :=
  c4_dedup_first_of_sorted exRows [exRow, exRowDup] (5, "p")
    [exRow] [exRow] [exRow, exRow] exRow (by decide) (by decide) (by decide)
    (by decide) (by decide) (by decide)

/-- C5, counterexample: `[exRow, exRowQ]` is already sorted by timestamp and
deduplicated (a timestamp tie between two distinct production types), and
`[exRowQ, exRow]` is an equally admissible output of re-sorting it under the
unstable sort; the dedup pass then returns `[exRowQ, exRow]`, not the
identical table — byte-for-byte idempotence of sort+dedup is not guaranteed
when timestamps tie. -/
theorem c5_idempotence_counterexample :
    sortedByTimestamp [exRow, exRowQ] ∧ uniqueKeys [exRow, exRowQ] ∧
    sortsByTimestamp [exRow, exRowQ] [exRowQ, exRow] ∧
    drop_duplicates [exRowQ, exRow] = [exRowQ, exRow] ∧
    ([exRowQ, exRow] : List Row) ≠ [exRow, exRowQ] := by
  refine ⟨by decide, by decide, by decide, by decide, by decide⟩

/-- C5 (amended): re-applying the sort+dedup pass to an already-sorted,
already-deduplicated table returns the same rows in ascending timestamp
order with the dedup a strict no-op, for every admissible output of the
unstable sort; merging canonical artifacts whose concatenation is key-unique
likewise passes through dedup unchanged, so the merge adds nothing beyond
concatenation and re-sorting; and whenever the table has no timestamp ties
at all the ascending order is unique, so the pass — also through the
single-artifact merge concatenation — returns the byte-identical table.
Only the relative order of equal-timestamp rows may differ (see the
counterexample). -/
theorem c5_idempotent_up_to_ties (t mid : List Row) (ts : List (List Row))
    (mid2 : List Row) (n : String)
    (h1 : sortedByTimestamp t) (h2 : uniqueKeys t)
    (hs : sortsByTimestamp t mid)
    (h4 : uniqueKeys ts.flatten) (hs2 : sortsByTimestamp ts.flatten mid2) :
    drop_duplicates mid = mid ∧
    ((t.map Row.timestamp).Nodup → drop_duplicates mid = t) ∧
    ([⟨n, t⟩] : List MonthlyFile).flatMap MonthlyFile.table = t ∧
    drop_duplicates mid2 = mid2 := by
  have hdedup : ∀ (l lsrc : List Row), uniqueKeys lsrc → List.Perm l lsrc →
      drop_duplicates l = l := by
    intro l lsrc hu hp
    unfold drop_duplicates
    exact dedupSeen_eq_self l [] (((hp.map rowKey).nodup_iff).mpr hu)
      (fun kk _ hk => List.not_mem_nil kk hk)
  refine ⟨hdedup mid t h2 hs.1, ?_, by simp, hdedup mid2 ts.flatten h4 hs2.1⟩
  intro hnt
  rw [hdedup mid t h2 hs.1]
  exact eq_of_sorted_perm_ts_nodup hs.1 hs.2 h1 hnt

/-- C5 witness: the tie-free canonical table `[exRow, exRowB]`, re-sorted to
itself (its only admissible sorted order), passes through dedup unchanged
and byte-identical; one monthly file holding it concatenates to exactly the
table; and a sorted output of two key-disjoint tables passes through dedup
unchanged. -/
theorem c5_idempotent_up_to_ties_witness :
    drop_duplicates [exRow, exRowB] = [exRow, exRowB] ∧
    ((([exRow, exRowB] : List Row).map Row.timestamp).Nodup →
      drop_duplicates [exRow, exRowB] = [exRow, exRowB]) ∧
    ([⟨"f1.csv", [exRow, exRowB]⟩] : List MonthlyFile).flatMap MonthlyFile.table
      = [exRow, exRowB] ∧
    drop_duplicates [exRow, exRowB] = [exRow, exRowB] :=
  c5_idempotent_up_to_ties [exRow, exRowB] [exRow, exRowB] [[exRow], [exRowB]]
    [exRow, exRowB] "f1.csv" (by decide) (by decide) (by decide) (by decide)
    (by decide)

/-- C7: for a merge group with a non-empty concatenated table, the yearly
artifact exists and its metadata is derived from the merged table: the unit
is the merged table's first row's unit, period_start and period_end are the
minimum and maximum timestamp of the merged table (which coincide with the
extrema over the concatenated inputs), and source_files lists the name of
every contributing monthly file. -/
theorem c7_yearly_metadata_derived (gk : GroupKey) (files : List MonthlyFile)
    (now : String) (h : files.flatMap MonthlyFile.table ≠ []) :
    ∃ a, mergeGroup gk files now = some a ∧
      (∃ first, a.table.head? = some first ∧ a.meta.unit = first.unit) ∧
      colMin (a.table.map Row.timestamp) = some a.meta.period_start ∧
      colMax (a.table.map Row.timestamp) = some a.meta.period_end ∧
      colMin ((files.flatMap MonthlyFile.table).map Row.timestamp)
        = some a.meta.period_start ∧
      colMax ((files.flatMap MonthlyFile.table).map Row.timestamp)
        = some a.meta.period_end ∧
      a.meta.source_files = files.map MonthlyFile.name := by
  have hne := canonicalize_ne_nil h
  cases hcv : canonicalize (files.flatMap MonthlyFile.table) with
  | nil => exact absurd hcv hne
  | cons r rest =>
    simp only [mergeGroup, hcv, List.head?_cons]
    refine ⟨_, rfl, ⟨r, rfl, rfl⟩, rfl, rfl, ?_, ?_, rfl⟩
    · rw [← colMin_ts_canonicalize, hcv]
      rfl
    · rw [← colMax_ts_canonicalize, hcv]
      rfl

/-- C7 witness: merging two concrete one-row monthly files produces a yearly
artifact whose metadata is derived from the merged table as stated. -/
theorem c7_yearly_metadata_derived_witness :
    ∃ a, mergeGroup ("DE", "actual", "load", "2024")
        [⟨"f1.csv", [exRow]⟩, ⟨"f2.csv", [exRow]⟩] "now" = some a ∧
      (∃ first, a.table.head? = some first ∧ a.meta.unit = first.unit) ∧
      colMin (a.table.map Row.timestamp) = some a.meta.period_start ∧
      colMax (a.table.map Row.timestamp) = some a.meta.period_end ∧
      colMin ((([⟨"f1.csv", [exRow]⟩, ⟨"f2.csv", [exRow]⟩] : List MonthlyFile).flatMap
          MonthlyFile.table).map Row.timestamp) = some a.meta.period_start ∧
      colMax ((([⟨"f1.csv", [exRow]⟩, ⟨"f2.csv", [exRow]⟩] : List MonthlyFile).flatMap
          MonthlyFile.table).map Row.timestamp) = some a.meta.period_end ∧
      a.meta.source_files = ([⟨"f1.csv", [exRow]⟩, ⟨"f2.csv", [exRow]⟩] :
        List MonthlyFile).map MonthlyFile.name :=
  c7_yearly_metadata_derived ("DE", "actual", "load", "2024")
    [⟨"f1.csv", [exRow]⟩, ⟨"f2.csv", [exRow]⟩] "now" (by decide)
